import Mathlib

set_option maxRecDepth 8000

/- Shallow embedding of the QC system backend (src/main.py and src/models.py):
the relational record store, an explicit filesystem state, and the MIR
pipeline helpers (sequencer, folder provisioner, document collector, merger)
together with the API operations that the claims refer to. -/

namespace QC

/-! ### Character-list utilities

Python string operations used by the source (split, join, substring test,
startswith/endswith, lexicographic sort, int parsing, zero padding) are
modelled over explicit character lists. -/

/-- Split a character list on a separator, like Python str.split. -/
def splitOnChar (sep : Char) : List Char → List (List Char)
  | [] => [[]]
  | c :: cs =>
    match splitOnChar sep cs with
    | [] => [[]]
    | l :: ls => if c == sep then [] :: l :: ls else (c :: l) :: ls

/-- Join character lists with a separator, like Python sep.join. -/
def joinChar (sep : Char) : List (List Char) → List Char
  | [] => []
  | [l] => l
  | l :: l2 :: ls => l ++ sep :: joinChar sep (l2 :: ls)

/-- Cumulative joins of the nonempty segments: for segments [a, b, c] this
yields [a, a.sep.b, a.sep.b.sep.c]; used to model os.makedirs creating every
ancestor directory of a path. -/
def cumJoins (sep : Char) : List (List Char) → List (List Char)
  | [] => []
  | [l] => [l]
  | l :: l2 :: ls => l :: (cumJoins sep (l2 :: ls)).map (fun r => l ++ sep :: r)

/-- The last segment of a split, like Python s.split(sep)[-1]. -/
def lastSegment (sep : Char) (s : String) : String :=
  String.mk ((splitOnChar sep s.data).getLastD [])

/-- Parse a nonempty all-digit character list, like Python int() on the
strings this system produces; None models the ValueError on other input. -/
def digitsToNatAux : List Char → Nat → Option Nat
  | [], acc => some acc
  | c :: cs, acc =>
    if c.isDigit then digitsToNatAux cs (acc * 10 + (c.toNat - 48)) else none

def digitsToNat : List Char → Option Nat
  | [] => none
  | c :: cs => digitsToNatAux (c :: cs) 0

/-- Python int(s) for the trailing dash-separated segment of s. -/
def parseTrailingNat (s : String) : Option Nat :=
  digitsToNat (lastSegment '-' s).data

/-- Lexicographic comparison on code points, as Python compares strings. -/
def charListLe : List Char → List Char → Bool
  | [], _ => true
  | _ :: _, [] => false
  | a :: as, b :: bs =>
    if a.toNat < b.toNat then true
    else if b.toNat < a.toNat then false
    else charListLe as bs

def strLe (a b : String) : Bool := charListLe a.data b.data

/-- Insertion into a sorted list, the building block of sortStrings. -/
def insertSorted (x : String) : List String → List String
  | [] => [x]
  | y :: ys => if strLe x y then x :: y :: ys else y :: insertSorted x ys

/-- Python sorted() on a list of strings. -/
def sortStrings (l : List String) : List String := l.foldr insertSorted []

/-- Substring test on character lists, modelling the Python "in" operator. -/
def charsContains (needle : List Char) : List Char → Bool
  | [] => needle.isEmpty
  | c :: cs => needle.isPrefixOf (c :: cs) || charsContains needle cs

/-- Python "needle in hay" for strings. -/
def strContains (needle hay : String) : Bool := charsContains needle.data hay.data

/-- Python hay.startswith(pat). -/
def strStartsWith (hay pat : String) : Bool := pat.data.isPrefixOf hay.data

/-- Python hay.endswith(pat). -/
def strEndsWith (hay pat : String) : Bool := pat.data.isSuffixOf hay.data

/-- Python format spec 04d: decimal digits left-padded with zeros to width 4. -/
def pad4 (n : Nat) : String :=
  let s := Nat.repr n
  String.mk (List.replicate (4 - s.length) '0') ++ s

/-! ### Filesystem state

The filesystem is a list of existing directory paths plus a list of
(path, content) files.  Paths are slash-separated strings exactly as the
source builds them with f-strings and os.path.join. -/

structure FS where
  dirs : List String
  files : List (String × String)
deriving DecidableEq

def fileExists (fs : FS) (p : String) : Bool :=
  fs.files.any (fun e => e.fst == p)

def dirExists (fs : FS) (p : String) : Bool :=
  fs.dirs.contains p

/-- os.path.exists: true for files and directories. -/
def pathExists (fs : FS) (p : String) : Bool :=
  dirExists fs p || fileExists fs p

def readFile (fs : FS) (p : String) : Option String :=
  (fs.files.find? (fun e => e.fst == p)).map (·.snd)

/-- open(p, "w") followed by writes: creates or truncates-and-replaces. -/
def writeFile (fs : FS) (p c : String) : FS :=
  { fs with files := (p, c) :: fs.files.filter (fun e => e.fst != p) }

/-- shutil.copy2: copy the content of src to dest. -/
def copyFile (fs : FS) (src dest : String) : FS :=
  match readFile fs src with
  | none => fs
  | some c => writeFile fs dest c

/-- Every ancestor of a path, the path itself included. -/
def pathAncestors (p : String) : List String :=
  (cumJoins '/' (splitOnChar '/' p.data)).map (fun l => String.mk l)

/-- The directory-creating effect of os.makedirs: add every missing ancestor. -/
def mkdirAll (fs : FS) (p : String) : FS :=
  { fs with dirs := fs.dirs ++ (pathAncestors p).filter (fun d => !(fs.dirs.contains d)) }

/-- os.makedirs(p, exist_ok=e): FileExistsError when the target exists and
exist_ok is false, otherwise create the missing directories. -/
def makedirs (fs : FS) (p : String) (existOk : Bool) : Except String FS :=
  if !existOk && dirExists fs p then .error "FileExistsError"
  else .ok (mkdirAll fs p)

/-- os.listdir: the names of the immediate children (files or directories). -/
def childNames (fs : FS) (p : String) : List String :=
  let pre := p ++ "/"
  (fs.dirs ++ fs.files.map (·.fst)).filterMap (fun q =>
    if pre.data.isPrefixOf q.data then
      let rest := q.data.drop pre.data.length
      if rest.isEmpty || rest.contains '/' then none else some (String.mk rest)
    else none)

/-! ### Record store

One record type per table of the canonical schema in src/main.py; the
store is the tuple of tables.  Integer primary keys are Nat; SQLAlchemy
color defaults are applied at insertion sites. -/

structure ProjectRec where
  id : Nat
  project_name : String
  project_code : String
  location : Option String
deriving DecidableEq

structure ProductionLogRec where
  id : Nat
  panel_id : String
  product_type : String
  quantity : Nat
  project_id : Nat
deriving DecidableEq

structure QCLogRec where
  id : Nat
  panel_id : String
  inspector_name : String
  status : String
  remarks : Option String
  project_id : Nat
  production_log_id : Nat
deriving DecidableEq

structure MIRMasterRec where
  id : Nat
  project_id : Nat
  mir_number : String
  status : String
  created_at : String
deriving DecidableEq

structure MIRPanelRec where
  id : Nat
  mir_id : Nat
  panel_id : String
deriving DecidableEq

structure DB where
  projects : List ProjectRec
  productionLogs : List ProductionLogRec
  qcLogs : List QCLogRec
  mirMasters : List MIRMasterRec
  mirPanels : List MIRPanelRec
deriving DecidableEq

def emptyDB : DB := ⟨[], [], [], [], []⟩

/-- query(Project).filter(Project.id == pid).first() -/
def findProject (db : DB) (pid : Nat) : Option ProjectRec :=
  db.projects.find? (fun p => p.id == pid)

/-- The next autoincrement primary key: one past the largest id in use. -/
def nextId (ids : List Nat) : Nat := ids.foldl max 0 + 1

/-- order_by(id.desc()).first(): the record with the largest id. -/
def maxIdRecord : List MIRMasterRec → Option MIRMasterRec
  | [] => none
  | r :: rs =>
    match maxIdRecord rs with
    | none => some r
    | some m => if r.id < m.id then some m else some r

/-- In-place mutation of the first record the query returned: replace the
first list element satisfying the test. -/
def updateFirst (p : α → Bool) (f : α → α) : List α → List α
  | [] => []
  | x :: xs => if p x then f x :: xs else x :: updateFirst p f xs

/-! ### The MIR pipeline helpers (src/main.py lines 131-221) -/

/-- generate_mir_number (src/main.py lines 131-146): query the MIR records
whose number is LIKE "project_code-MIR-%", take the one with the highest id,
parse the trailing dash-separated segment as an integer and add one; start
at 1 when no record matches.  None models the ValueError int() would raise
on a non-numeric suffix. -/
def generate_mir_number (project_code : String) (db : DB) : Option String :=
  let pattern := project_code ++ "-MIR-"
  let matching := db.mirMasters.filter (fun m => strStartsWith m.mir_number pattern)
  match maxIdRecord matching with
  | none => some ("MIR-" ++ pad4 1)
  | some last =>
    match parseTrailingNat last.mir_number with
    | none => none
    | some lastNum => some ("MIR-" ++ pad4 (lastNum + 1))

def mirFolderPath (pid : Nat) (code num : String) : String :=
  "storage/project_" ++ Nat.repr pid ++ "/MIR/" ++ code ++ "-" ++ num

def mirSubfolders : List String := ["source_files", "merged_pdf", "final_mir"]

/-- The per-panel lines of index.txt: one "  - panel" line per panel. -/
def panelLines (panel_ids : List String) : String :=
  panel_ids.foldr (fun p acc => "  - " ++ p ++ "\n" ++ acc) ""

/-- The text written into index.txt by create_mir_folder. -/
def indexContent (code num pname ts : String) (panel_ids : List String) : String :=
  "MIR Number: " ++ code ++ "-" ++ num ++ "\n" ++
  "Project: " ++ pname ++ "\n" ++
  "Created: " ++ ts ++ "\n" ++
  "\nPanel IDs:\n" ++
  panelLines panel_ids

/-- create_mir_folder (src/main.py lines 149-169): look the project up (a
missing project is a silent no-op), create the package folder and its three
subfolders with exist_ok=True, then write index.txt; ts is the
datetime.now() timestamp string. -/
def create_mir_folder (pid : Nat) (num : String) (panel_ids : List String)
    (db : DB) (fs : FS) (ts : String) : Except String FS :=
  match findProject db pid with
  | none => .ok fs
  | some proj =>
    let mf := mirFolderPath pid proj.project_code num
    (makedirs fs mf true).bind (fun fs1 =>
      (mirSubfolders.foldlM (fun acc sub => makedirs acc (mf ++ "/" ++ sub) true) fs1).bind
        (fun fs2 =>
          .ok (writeFile fs2 (mf ++ "/index.txt")
            (indexContent proj.project_code num proj.project_name ts panel_ids))))

def collectorSubfolders : List String := ["checklists", "drawings", "photos"]

/-- attach_documents_to_mir (src/main.py lines 172-192): note the source
builds the MIR folder with the numeric project_id in place of the project
code, copying into storage/project_pid/MIR/pid-num/source_files.  A missing
panel folder or subfolder is skipped; each copied file is renamed to
panel_subfolder_filename. -/
def attach_documents_to_mir (pid : Nat) (num : String) (panel_ids : List String)
    (fs : FS) : FS :=
  let mirFolder := "storage/project_" ++ Nat.repr pid ++ "/MIR/" ++ Nat.repr pid ++ "-" ++ num
  let sourceFilesFolder := mirFolder ++ "/" ++ "source_files"
  let fs0 := mkdirAll fs sourceFilesFolder
  panel_ids.foldl (fun fsP panel =>
    let panelFolder := "storage/project_" ++ Nat.repr pid ++ "/production_logs/" ++ panel
    if !(pathExists fsP panelFolder) then fsP
    else collectorSubfolders.foldl (fun fsS sub =>
      let sourcePath := panelFolder ++ "/" ++ sub
      if pathExists fsS sourcePath && dirExists fsS sourcePath then
        (childNames fsS sourcePath).foldl (fun fsF filename =>
          let filePath := sourcePath ++ "/" ++ filename
          if fileExists fsF filePath then
            copyFile fsF filePath
              (sourceFilesFolder ++ "/" ++ panel ++ "_" ++ sub ++ "_" ++ filename)
          else fsF) fsS
      else fsS) fsP) fs0

/-- The five ordering markers of the merger, in priority order. -/
def orderedGroups : List String := ["MIR_FORM_", "PANEL_LIST_", "CHECKLIST", "DRAWING_", "PHOTO"]

/-- One priority group of the merge loop: the staging filenames, sorted,
restricted to pdf files containing the group marker. -/
def mergeGroupBlock (g : String) (files : List String) : List String :=
  (sortStrings files).filter (fun f => strEndsWith f ".pdf" && strContains g f)

/-- The order in which merge_mir_pdfs appends staging files (src/main.py
lines 209-215): for each marker group in priority order, every sorted pdf
filename containing that marker. -/
def mergeOrder (files : List String) : List String :=
  orderedGroups.flatMap (fun g => mergeGroupBlock g files)

/-- merge_mir_pdfs (src/main.py lines 195-221): None and no write when the
project is missing or the staging folder does not exist; otherwise write
the concatenation of the staged pdfs, in mergeOrder, to FINAL_MIR.pdf under
the package root and return its path. -/
def merge_mir_pdfs (pid : Nat) (num : String) (db : DB) (fs : FS) :
    Option String × FS :=
  match findProject db pid with
  | none => (none, fs)
  | some proj =>
    let basePath := mirFolderPath pid proj.project_code num
    let mirPath := basePath ++ "/" ++ "source_files"
    let outputPdf := basePath ++ "/" ++ "FINAL_MIR.pdf"
    if pathExists fs mirPath then
      let files := childNames fs mirPath
      let content := String.join ((mergeOrder files).map
        (fun f => (readFile fs (mirPath ++ "/" ++ f)).getD ""))
      (some outputPdf, writeFile fs outputPdf content)
    else (none, fs)

/-- Modelled from the spec: generate_mir_cover_page is called by create_mir
(src/main.py line 349) but its definition is not among the source files;
spec section 4.3 says it renders the report metadata (project, report
number, date, panel count) as one PDF whose filename contains the token
MIR_FORM_, placed with the generated documents in the package staging
area (spec section 6). -/
def generate_mir_cover_page (pid : Nat) (num : String) (panel_ids : List String)
    (db : DB) (fs : FS) : FS :=
  match findProject db pid with
  | none => fs
  | some proj =>
    let staging := mirFolderPath pid proj.project_code num ++ "/" ++ "source_files"
    writeFile fs (staging ++ "/MIR_FORM_" ++ proj.project_code ++ "-" ++ num ++ ".pdf")
      ("PDF cover page: " ++ proj.project_name ++ " " ++ proj.project_code ++ "-" ++ num ++
        " panels " ++ Nat.repr panel_ids.length)

/-- Modelled from the spec: generate_panel_list_pdf is called by create_mir
(src/main.py line 350) but its definition is not among the source files;
spec section 4.3 says it renders the full panel identifier list as a PDF
whose filename contains the token PANEL_LIST_, placed with the generated
documents in the package staging area (spec section 6). -/
def generate_panel_list_pdf (pid : Nat) (num : String) (panel_ids : List String)
    (db : DB) (fs : FS) : FS :=
  match findProject db pid with
  | none => fs
  | some proj =>
    let staging := mirFolderPath pid proj.project_code num ++ "/" ++ "source_files"
    writeFile fs (staging ++ "/PANEL_LIST_" ++ proj.project_code ++ "-" ++ num ++ ".pdf")
      ("PDF panel list: " ++ String.intercalate ", " panel_ids)

/-! ### API operations -/

structure MirResponse where
  mir_number : String
  status : String
  folder_created : Bool
  pdf_merged : Bool
deriving DecidableEq

/-- Insertion of one MIRPanel row, as done per panel inside create_mir. -/
def addPanelRow (mirId : Nat) (d : DB) (p : String) : DB :=
  { d with mirPanels := d.mirPanels ++ [⟨nextId (d.mirPanels.map (·.id)), mirId, p⟩] }

/-- The tail of create_mir after the MIRMaster and MIRPanel rows are
committed (src/main.py lines 346-362): folder creation, the two document
generators, the collector, the merger, and the final status update. -/
def create_mir_finish (pid : Nat) (panel_ids : List String) (num : String) (mirId : Nat)
    (db2 : DB) (fs : FS) (ts : String) : Except String (MirResponse × DB × FS) :=
  match create_mir_folder pid num panel_ids db2 fs ts with
  | .error e => .error e
  | .ok fs1 =>
    let fs2 := generate_mir_cover_page pid num panel_ids db2 fs1
    let fs3 := generate_panel_list_pdf pid num panel_ids db2 fs2
    let fs4 := attach_documents_to_mir pid num panel_ids fs3
    let merged := merge_mir_pdfs pid num db2 fs4
    let newStatus := if merged.fst.isSome then "Final" else "Ready"
    let db3 := { db2 with
      mirMasters := updateFirst (fun m => m.id == mirId)
        (fun m => { m with status := newStatus }) db2.mirMasters }
    .ok ({ mir_number := num, status := newStatus, folder_created := true,
           pdf_merged := merged.fst.isSome }, db3, merged.snd)

/-- POST /projects/pid/mir (src/main.py lines 329-362): look up the project
(404 when absent), generate the number, insert the MIRMaster row (the
unique column constraint on mir_number rejects a duplicate; the failed
commit is rolled back), insert the panel rows, then run the rest of the
pipeline through create_mir_finish. -/
def create_mir (pid : Nat) (panel_ids : List String) (db : DB) (fs : FS)
    (ts : String) : Except String (MirResponse × DB × FS) :=
  match findProject db pid with
  | none => .error "404 Project not found"
  | some proj =>
    match generate_mir_number proj.project_code db with
    | none => .error "ValueError"
    | some num =>
      if db.mirMasters.any (fun m => m.mir_number == num) then
        .error "IntegrityError UNIQUE constraint failed mir_master.mir_number"
      else
        let mirId := nextId (db.mirMasters.map (·.id))
        let db1 := { db with mirMasters := db.mirMasters ++ [⟨mirId, pid, num, "Draft", ts⟩] }
        let db2 := panel_ids.foldl (addPanelRow mirId) db1
        create_mir_finish pid panel_ids num mirId db2 fs ts

/-- The status mutation performed by the approval operation:
qc_log.status = "Approved", all other columns untouched. -/
def approveRec (q : QCLogRec) : QCLogRec := { q with status := "Approved" }

/-- POST /qc-logs/qid/approve (src/main.py lines 269-277): 404 and no
change when no QC log has the id; otherwise set the status of the first
matching record to Approved. -/
def approve_qc_log (qid : Nat) (db : DB) : Except String (String × Nat × String) × DB :=
  match db.qcLogs.find? (fun q => q.id == qid) with
  | none => (.error "404 QC Log not found", db)
  | some _ =>
    (.ok ("QC Log approved", qid, "Approved"),
     { db with qcLogs := updateFirst (fun q => q.id == qid) approveRec db.qcLogs })

/-- POST /projects (src/main.py lines 231-246): the unique column
constraint on project_code rejects a duplicate; otherwise insert the row
and create the production_logs and MIR folders. -/
def create_project (pname pcode : String) (loc : Option String) (db : DB) (fs : FS) :
    Except String (ProjectRec × DB × FS) :=
  if db.projects.any (fun p => p.project_code == pcode) then
    .error "IntegrityError UNIQUE constraint failed project.project_code"
  else
    let pidNew := nextId (db.projects.map (·.id))
    let pr : ProjectRec := ⟨pidNew, pname, pcode, loc⟩
    let fs1 := mkdirAll (mkdirAll fs ("storage/project_" ++ Nat.repr pidNew ++ "/production_logs"))
      ("storage/project_" ++ Nat.repr pidNew ++ "/MIR")
    .ok (pr, { db with projects := db.projects ++ [pr] }, fs1)

/-- POST /production-logs (src/main.py lines 249-260): the unique column
constraint on panel_id rejects a duplicate; otherwise insert the row. -/
def create_production_log (panel product : String) (qty : Nat) (pid : Nat) (db : DB) :
    Except String DB :=
  if db.productionLogs.any (fun l => l.panel_id == panel) then
    .error "IntegrityError UNIQUE constraint failed production_log.panel_id"
  else
    .ok { db with productionLogs := db.productionLogs ++
      [⟨nextId (db.productionLogs.map (·.id)), panel, product, qty, pid⟩] }

/-! ### Reachable record-store states -/

/-- One committed store-modifying API operation. -/
inductive DBStep : DB → DB → Prop
  | createProject (pname pcode : String) (loc : Option String) (fs fs2 : FS)
      (pr : ProjectRec) (db db2 : DB)
      (h : create_project pname pcode loc db fs = .ok (pr, db2, fs2)) : DBStep db db2
  | createProductionLog (panel product : String) (qty pid : Nat) (db db2 : DB)
      (h : create_production_log panel product qty pid db = .ok db2) : DBStep db db2
  | approve (qid : Nat) (db : DB) : DBStep db (approve_qc_log qid db).snd
  | createMIR (pid : Nat) (panel_ids : List String) (ts : String) (fs fs2 : FS)
      (r : MirResponse) (db db2 : DB)
      (h : create_mir pid panel_ids db fs ts = .ok (r, db2, fs2)) : DBStep db db2

/-- A store state reachable from the empty store through the API. -/
def ReachableDB (db : DB) : Prop := Relation.ReflTransGen DBStep emptyDB db

/-- The system-wide uniqueness invariant on MIR numbers. -/
def mirNumbersUnique (db : DB) : Prop :=
  (db.mirMasters.map (·.mir_number)).Pairwise Ne

/-- Join character lists with a trailing separator after every element,
the shape of line-structured file content. -/
def linesJoin (sep : Char) (ls : List (List Char)) : List Char :=
  ls.foldr (fun l acc => l ++ sep :: acc) []

/-- The lines of a string, split on the newline character. -/
def linesOf (s : String) : List String :=
  (splitOnChar '\n' s.data).map String.mk

/-- The string contains no newline, so it fits on one line. -/
abbrev noNl (s : String) : Prop := '\n' ∉ s.data

/-! ### Concrete fixtures used by the evaluation theorems and witnesses -/

def emptyFS : FS := ⟨[], []⟩

def sampleProject : ProjectRec := ⟨1, "Alpha Substation", "P1", none⟩

/-- A store holding one MIR record numbered the way create_mir stores them. -/
def c1DB : DB := { emptyDB with
  projects := [sampleProject],
  mirMasters := [⟨1, 1, "MIR-0042", "Final", "2026-01-01"⟩] }

/-- A store with two projects and one MIR already created for the first;
reachable by creating both projects and posting one MIR for project 1. -/
def c2DB : DB := { emptyDB with
  projects := [⟨1, "Alpha Substation", "P1", none⟩, ⟨2, "Beta Plant", "P2", none⟩],
  mirMasters := [⟨1, 1, "MIR-0001", "Final", "2026-01-01"⟩] }

/-- A filesystem with one panel document and a provisioned package for a
project whose code is ABC and whose id is 1. -/
def c3FS : FS :=
  { dirs := ["storage", "storage/project_1", "storage/project_1/production_logs",
      "storage/project_1/production_logs/P1",
      "storage/project_1/production_logs/P1/checklists",
      "storage/project_1/MIR", "storage/project_1/MIR/ABC-MIR-0001",
      "storage/project_1/MIR/ABC-MIR-0001/source_files",
      "storage/project_1/MIR/ABC-MIR-0001/merged_pdf",
      "storage/project_1/MIR/ABC-MIR-0001/final_mir"],
    files := [("storage/project_1/production_logs/P1/checklists/a.pdf", "PDFA")] }

/-- A store with two pending QC logs. -/
def c9DB : DB := { emptyDB with
  qcLogs := [⟨5, "P1", "Inspector One", "Pending", none, 1, 1⟩,
             ⟨6, "P2", "Inspector Two", "Pending", some "chipped edge", 1, 2⟩] }

/-- A filesystem holding an existing package with prior contents, for the
idempotence claim. -/
def c8FS : FS :=
  { dirs := ["storage", "storage/project_1", "storage/project_1/MIR",
      "storage/project_1/MIR/P1-MIR-0007",
      "storage/project_1/MIR/P1-MIR-0007/source_files",
      "storage/project_1/MIR/P1-MIR-0007/merged_pdf",
      "storage/project_1/MIR/P1-MIR-0007/final_mir"],
    files := [("storage/project_1/MIR/P1-MIR-0007/source_files/CHECKLIST_old.pdf", "OLD"),
              ("storage/project_1/MIR/P1-MIR-0007/index.txt", "old index")] }

/-! ### Lemmas about the character-list utilities -/

theorem splitOnChar_cons (sep c : Char) (cs : List Char) :
    splitOnChar sep (c :: cs) =
      match splitOnChar sep cs with
      | [] => [[]]
      | l :: ls => if c == sep then [] :: l :: ls else (c :: l) :: ls := rfl

theorem splitOnChar_ne_nil (sep : Char) : ∀ l, splitOnChar sep l ≠ []
  | [] => by simp [splitOnChar]
  | c :: cs => by
    unfold splitOnChar
    cases h : splitOnChar sep cs with
    | nil => simp
    | cons a as =>
      dsimp only []
      split <;> simp

theorem joinChar_splitOnChar (sep : Char) : ∀ l, joinChar sep (splitOnChar sep l) = l
  | [] => rfl
  | c :: cs => by
    have ih := joinChar_splitOnChar sep cs
    unfold splitOnChar
    cases h : splitOnChar sep cs with
    | nil => exact absurd h (splitOnChar_ne_nil sep cs)
    | cons a as =>
      rw [h] at ih
      dsimp only []
      by_cases hc : c = sep
      · simp only [hc, beq_self_eq_true, if_true, joinChar]
        cases as with
        | nil => simp [joinChar] at ih ⊢; rw [ih]
        | cons a2 as2 => simp [joinChar] at ih ⊢; rw [ih]
      · have : (c == sep) = false := by simp [hc]
        simp only [this, Bool.false_eq_true, if_false]
        cases as with
        | nil => simp [joinChar] at ih ⊢; rw [ih]
        | cons a2 as2 =>
          simp only [joinChar] at ih ⊢
          rw [List.cons_append, ih]

theorem joinChar_mem_cumJoins (sep : Char) : ∀ ls, ls ≠ [] → joinChar sep ls ∈ cumJoins sep ls
  | [], h => absurd rfl h
  | [l], _ => by simp [joinChar, cumJoins]
  | l :: l2 :: ls, _ => by
    have ih := joinChar_mem_cumJoins sep (l2 :: ls) (by simp)
    simp only [joinChar, cumJoins, List.mem_cons, List.mem_map]
    right
    exact ⟨joinChar sep (l2 :: ls), ih, rfl⟩

theorem self_mem_pathAncestors (p : String) : p ∈ pathAncestors p := by
  unfold pathAncestors
  have h1 : joinChar '/' (splitOnChar '/' p.data) = p.data := joinChar_splitOnChar _ _
  have h2 := joinChar_mem_cumJoins '/' (splitOnChar '/' p.data) (splitOnChar_ne_nil _ _)
  rw [h1] at h2
  exact List.mem_map.mpr ⟨p.data, h2, rfl⟩

theorem splitOnChar_append_sep (sep : Char) :
    ∀ a b, splitOnChar sep (a ++ sep :: b) = splitOnChar sep a ++ splitOnChar sep b
  | [], b => by
    simp only [List.nil_append]
    rw [splitOnChar_cons]
    cases h : splitOnChar sep b with
    | nil => exact absurd h (splitOnChar_ne_nil sep b)
    | cons l ls => simp [splitOnChar]
  | c :: a, b => by
    have ih := splitOnChar_append_sep sep a b
    simp only [List.cons_append]
    rw [splitOnChar_cons, ih, splitOnChar_cons]
    cases h : splitOnChar sep a with
    | nil => exact absurd h (splitOnChar_ne_nil sep a)
    | cons l ls =>
      dsimp only []
      by_cases hc : c = sep
      · simp [hc]
      · have : (c == sep) = false := by simp [hc]
        simp [this]

theorem splitOnChar_of_not_mem (sep : Char) : ∀ l, sep ∉ l → splitOnChar sep l = [l]
  | [], _ => rfl
  | c :: cs, h => by
    have ih := splitOnChar_of_not_mem sep cs (fun hm => h (List.mem_cons_of_mem c hm))
    have hc : (c == sep) = false := by
      simp only [beq_eq_false_iff_ne, ne_eq]
      intro he
      exact h (he ▸ List.mem_cons_self c cs)
    unfold splitOnChar
    rw [ih]
    simp [hc]

theorem cumJoins_append_single (sep : Char) :
    ∀ ps x, ps ≠ [] →
      cumJoins sep (ps ++ [x]) = cumJoins sep ps ++ [joinChar sep ps ++ sep :: x]
  | [], _, h => absurd rfl h
  | [l], x, _ => by simp [cumJoins, joinChar]
  | l :: l2 :: ls, x, _ => by
    have ih := cumJoins_append_single sep (l2 :: ls) x (by simp)
    have e1 : cumJoins sep ((l :: l2 :: ls) ++ [x]) =
        l :: (cumJoins sep ((l2 :: ls) ++ [x])).map (fun r => l ++ sep :: r) := rfl
    have e2 : cumJoins sep (l :: l2 :: ls) =
        l :: (cumJoins sep (l2 :: ls)).map (fun r => l ++ sep :: r) := rfl
    have e3 : joinChar sep (l :: l2 :: ls) = l ++ sep :: joinChar sep (l2 :: ls) := rfl
    rw [e1, ih, e2, e3]
    simp [List.append_assoc]

theorem pathAncestors_append_leaf (p s : String) (h : '/' ∉ s.data) :
    pathAncestors (p ++ "/" ++ s) = pathAncestors p ++ [p ++ "/" ++ s] := by
  have hd : (p ++ "/" ++ s).data = p.data ++ '/' :: s.data := by
    rw [String.data_append, String.data_append]
    simp [show ("/" : String).data = ['/'] from rfl]
  unfold pathAncestors
  rw [hd, splitOnChar_append_sep, splitOnChar_of_not_mem _ _ h,
    cumJoins_append_single _ _ _ (splitOnChar_ne_nil _ _), List.map_append]
  congr 1
  simp only [List.map_cons, List.map_nil]
  congr 1
  rw [joinChar_splitOnChar]
  rw [← hd]

theorem linesJoin_cons (sep : Char) (l : List Char) (ls : List (List Char)) :
    linesJoin sep (l :: ls) = l ++ sep :: linesJoin sep ls := rfl

theorem linesJoin_append (sep : Char) (xs ys : List (List Char)) :
    linesJoin sep (xs ++ ys) = linesJoin sep xs ++ linesJoin sep ys := by
  induction xs with
  | nil => rfl
  | cons l ls ih => simp [linesJoin_cons, ih]

theorem splitOnChar_linesJoin (sep : Char) :
    ∀ ls, (∀ l ∈ ls, sep ∉ l) → splitOnChar sep (linesJoin sep ls) = ls ++ [[]]
  | [], _ => rfl
  | l :: ls, h => by
    have ih := splitOnChar_linesJoin sep ls (fun x hx => h x (List.mem_cons_of_mem l hx))
    rw [linesJoin_cons, splitOnChar_append_sep, ih,
      splitOnChar_of_not_mem _ _ (h l (List.mem_cons_self l ls))]
    simp

/-! ### Lemmas about the filesystem model -/

theorem dirExists_iff (fs : FS) (p : String) : dirExists fs p = true ↔ p ∈ fs.dirs := by
  simp only [dirExists]
  exact List.elem_iff

theorem fileExists_iff (fs : FS) (p : String) :
    fileExists fs p = true ↔ ∃ e ∈ fs.files, e.fst = p := by
  simp [fileExists, List.any_eq_true]

theorem mkdirAll_files (fs : FS) (p : String) : (mkdirAll fs p).files = fs.files := rfl

theorem writeFile_dirs (fs : FS) (p c : String) : (writeFile fs p c).dirs = fs.dirs := rfl

theorem copyFile_dirs (fs : FS) (src dest : String) : (copyFile fs src dest).dirs = fs.dirs := by
  unfold copyFile
  cases readFile fs src <;> rfl

theorem mem_dirs_mkdirAll (fs : FS) (p d : String) :
    d ∈ (mkdirAll fs p).dirs ↔ d ∈ fs.dirs ∨ d ∈ pathAncestors p := by
  simp only [mkdirAll, List.mem_append, List.mem_filter]
  constructor
  · rintro (h | h)
    · exact Or.inl h
    · exact Or.inr h.1
  · rintro (h | h)
    · exact Or.inl h
    · by_cases hd : d ∈ fs.dirs
      · exact Or.inl hd
      · refine Or.inr ⟨h, ?_⟩
        have hcont : fs.dirs.contains d = false := by
          cases hc : fs.dirs.contains d
          · rfl
          · exact absurd (List.elem_iff.mp hc) hd
        rw [hcont]
        rfl

theorem dirExists_mkdirAll_self (fs : FS) (p : String) :
    dirExists (mkdirAll fs p) p = true := by
  rw [dirExists_iff, mem_dirs_mkdirAll]
  exact Or.inr (self_mem_pathAncestors p)

theorem dirExists_mkdirAll_of (fs : FS) (p d : String) (h : dirExists fs d = true) :
    dirExists (mkdirAll fs p) d = true := by
  rw [dirExists_iff] at h ⊢
  rw [mem_dirs_mkdirAll]
  exact Or.inl h

theorem fileExists_writeFile_self (fs : FS) (p c : String) :
    fileExists (writeFile fs p c) p = true := by
  simp [fileExists, writeFile]

theorem fileExists_writeFile_of (fs : FS) (p c q : String) (h : fileExists fs q = true) :
    fileExists (writeFile fs p c) q = true := by
  by_cases hpq : q = p
  · subst hpq
    exact fileExists_writeFile_self fs q c
  · rw [fileExists_iff] at h ⊢
    obtain ⟨e, he, hfst⟩ := h
    refine ⟨e, List.mem_cons_of_mem _ (List.mem_filter.mpr ⟨he, ?_⟩), hfst⟩
    simp [bne_iff_ne, hfst, hpq]

theorem fileExists_mkdirAll (fs : FS) (p q : String) :
    fileExists (mkdirAll fs p) q = fileExists fs q := rfl

theorem readFile_writeFile_self (fs : FS) (p c : String) :
    readFile (writeFile fs p c) p = some c := by
  simp [readFile, writeFile, List.find?_cons_of_pos]

theorem fileExists_copyFile_of (fs : FS) (src dest q : String) (h : fileExists fs q = true) :
    fileExists (copyFile fs src dest) q = true := by
  unfold copyFile
  cases readFile fs src with
  | none => exact h
  | some c => exact fileExists_writeFile_of fs dest c q h

theorem foldl_dirs_mono {α : Type} (f : FS → α → FS)
    (hf : ∀ fs x d, d ∈ fs.dirs → d ∈ (f fs x).dirs) :
    ∀ (l : List α) (fs : FS) (d : String), d ∈ fs.dirs → d ∈ (l.foldl f fs).dirs
  | [], _, _, h => h
  | x :: xs, fs, d, h => foldl_dirs_mono f hf xs (f fs x) d (hf fs x d h)

theorem attach_dirs_mono (pid : Nat) (num : String) (ps : List String) (fs : FS) (d : String)
    (h : d ∈ fs.dirs) : d ∈ (attach_documents_to_mir pid num ps fs).dirs := by
  unfold attach_documents_to_mir
  apply foldl_dirs_mono
  · intro fsP panel d1 h1
    dsimp only []
    split
    · exact h1
    · apply foldl_dirs_mono
      · intro fsS sub d2 h2
        dsimp only []
        split
        · apply foldl_dirs_mono
          · intro fsF fn d3 h3
            dsimp only []
            split
            · rw [copyFile_dirs]
              exact h3
            · exact h3
          · exact h2
        · exact h2
      · exact h1
  · exact (mem_dirs_mkdirAll fs _ d).mpr (Or.inl h)

/-! ### Lemmas about sorting and counting -/

theorem charListLe_total : ∀ a b, charListLe a b = false → charListLe b a = true
  | [], _, h => by simp [charListLe] at h
  | _ :: _, [], _ => by simp [charListLe]
  | a :: as, b :: bs, h => by
    simp only [charListLe] at h ⊢
    split_ifs at h ⊢
    all_goals try rfl
    all_goals exact charListLe_total as bs h

theorem charListLe_trans : ∀ a b c,
    charListLe a b = true → charListLe b c = true → charListLe a c = true
  | [], _, _, _, _ => by simp [charListLe]
  | _ :: _, [], _, h, _ => by simp [charListLe] at h
  | _ :: _, _ :: _, [], _, h2 => by simp [charListLe] at h2
  | a :: as, b :: bs, c :: cs, h1, h2 => by
    simp only [charListLe] at h1 h2 ⊢
    split_ifs at h1 h2 ⊢
    all_goals try rfl
    all_goals try omega
    all_goals exact charListLe_trans as bs cs h1 h2

theorem strLe_total (a b : String) (h : strLe a b = false) : strLe b a = true :=
  charListLe_total a.data b.data h

theorem strLe_trans (a b c : String) (h1 : strLe a b = true) (h2 : strLe b c = true) :
    strLe a c = true :=
  charListLe_trans a.data b.data c.data h1 h2

theorem mem_insertSorted (x z : String) : ∀ l, z ∈ insertSorted x l ↔ z = x ∨ z ∈ l
  | [] => by simp [insertSorted]
  | y :: ys => by
    unfold insertSorted
    by_cases h : strLe x y
    · simp only [if_pos h, List.mem_cons]
    · simp only [if_neg h, List.mem_cons, mem_insertSorted x z ys]
      tauto

theorem pairwise_insertSorted (x : String) :
    ∀ l, l.Pairwise (fun a b => strLe a b = true) →
      (insertSorted x l).Pairwise (fun a b => strLe a b = true)
  | [], _ => by simp [insertSorted]
  | y :: ys, h => by
    rw [List.pairwise_cons] at h
    obtain ⟨hy, hys⟩ := h
    unfold insertSorted
    by_cases hxy : strLe x y = true
    · rw [if_pos hxy, List.pairwise_cons]
      refine ⟨?_, List.pairwise_cons.mpr ⟨hy, hys⟩⟩
      intro z hz
      rcases List.mem_cons.mp hz with rfl | hz'
      · exact hxy
      · exact strLe_trans x y z hxy (hy z hz')
    · rw [if_neg hxy, List.pairwise_cons]
      refine ⟨?_, pairwise_insertSorted x ys hys⟩
      intro z hz
      have hxyf : strLe x y = false := by
        cases hb : strLe x y
        · rfl
        · exact absurd hb hxy
      rcases (mem_insertSorted x z ys).mp hz with hzx | hz'
      · rw [hzx]
        exact strLe_total x y hxyf
      · exact hy z hz'

theorem sortStrings_pairwise : ∀ l, (sortStrings l).Pairwise (fun a b => strLe a b = true)
  | [] => List.Pairwise.nil
  | x :: xs => pairwise_insertSorted x (sortStrings xs) (sortStrings_pairwise xs)

theorem count_insertSorted (x y : String) :
    ∀ l, (insertSorted x l).count y = (x :: l).count y
  | [] => rfl
  | z :: zs => by
    unfold insertSorted
    by_cases h : strLe x z
    · rw [if_pos h]
    · rw [if_neg h]
      simp only [List.count_cons, count_insertSorted x y zs]
      omega

theorem count_sortStrings (y : String) : ∀ l, (sortStrings l).count y = l.count y
  | [] => rfl
  | x :: xs => by
    show (insertSorted x (sortStrings xs)).count y = _
    rw [count_insertSorted]
    simp only [List.count_cons, count_sortStrings y xs]

theorem count_filter_eq (p : String → Bool) (y : String) (l : List String) :
    (l.filter p).count y = if p y then l.count y else 0 := by
  by_cases h : p y = true
  · rw [if_pos h]
    exact List.count_filter h
  · rw [if_neg h]
    refine List.count_eq_zero.mpr ?_
    intro hm
    exact h (List.mem_filter.mp hm).2

/-! ### Lemmas about the record store operations -/

theorem map_updateFirst {α β : Type} (p : α → Bool) (f : α → α) (g : α → β)
    (hg : ∀ x, g (f x) = g x) : ∀ l, (updateFirst p f l).map g = l.map g
  | [] => rfl
  | x :: xs => by
    unfold updateFirst
    by_cases h : p x
    · simp [h, hg x]
    · simp [h, map_updateFirst p f g hg xs]

theorem addPanelRow_projects (mid : Nat) (db : DB) (p : String) :
    (addPanelRow mid db p).projects = db.projects := rfl

theorem addPanelRow_mirMasters (mid : Nat) (db : DB) (p : String) :
    (addPanelRow mid db p).mirMasters = db.mirMasters := rfl

theorem foldl_addPanelRow_projects (mid : Nat) :
    ∀ (l : List String) (db : DB), (l.foldl (addPanelRow mid) db).projects = db.projects
  | [], _ => rfl
  | x :: xs, db => by
    rw [List.foldl_cons, foldl_addPanelRow_projects mid xs, addPanelRow_projects]

theorem foldl_addPanelRow_mirMasters (mid : Nat) :
    ∀ (l : List String) (db : DB), (l.foldl (addPanelRow mid) db).mirMasters = db.mirMasters
  | [], _ => rfl
  | x :: xs, db => by
    rw [List.foldl_cons, foldl_addPanelRow_mirMasters mid xs, addPanelRow_mirMasters]

theorem findProject_congr (db1 db2 : DB) (pid : Nat) (h : db1.projects = db2.projects) :
    findProject db1 pid = findProject db2 pid := by
  simp [findProject, h]

theorem create_mir_finish_ok_mirMasters (pid : Nat) (ps : List String) (num : String)
    (mirId : Nat) (dbIn : DB) (fs : FS) (ts : String) (r : MirResponse) (dbOut : DB)
    (fsOut : FS) (h : create_mir_finish pid ps num mirId dbIn fs ts = .ok (r, dbOut, fsOut)) :
    dbOut.mirMasters.map (fun m => m.mir_number) =
      dbIn.mirMasters.map (fun m => m.mir_number) := by
  unfold create_mir_finish at h
  rcases hcf : create_mir_folder pid num ps dbIn fs ts with e | fs1 <;> rw [hcf] at h
  · exact Except.noConfusion h
  · simp only [Except.ok.injEq, Prod.mk.injEq] at h
    obtain ⟨-, hdb, -⟩ := h
    rw [← hdb]
    dsimp only
    apply map_updateFirst
    intro x
    rfl

theorem create_mir_ok_numbers (pid : Nat) (ps : List String) (db : DB) (fs : FS) (ts : String)
    (r : MirResponse) (db2 : DB) (fs2 : FS)
    (h : create_mir pid ps db fs ts = .ok (r, db2, fs2)) :
    ∃ num, (∀ m ∈ db.mirMasters, m.mir_number ≠ num) ∧
      db2.mirMasters.map (fun m => m.mir_number) =
        db.mirMasters.map (fun m => m.mir_number) ++ [num] := by
  unfold create_mir at h
  rcases hfind : findProject db pid with _ | proj <;> rw [hfind] at h
  · exact Except.noConfusion h
  dsimp only at h
  rcases hgen : generate_mir_number proj.project_code db with _ | num <;> rw [hgen] at h
  · exact Except.noConfusion h
  dsimp only at h
  by_cases hany : db.mirMasters.any (fun m => m.mir_number == num) = true
  · rw [if_pos hany] at h
    exact Except.noConfusion h
  · rw [if_neg hany] at h
    refine ⟨num, ?_, ?_⟩
    · intro m hm
      have := List.any_eq_false.mp (Bool.eq_false_iff.mpr hany) m hm
      intro he
      exact this (by rw [he, beq_self_eq_true])
    · rw [create_mir_finish_ok_mirMasters _ _ _ _ _ _ _ _ _ _ h,
        foldl_addPanelRow_mirMasters]
      simp

theorem create_project_ok_mirMasters (pname pcode : String) (loc : Option String)
    (db : DB) (fs : FS) (pr : ProjectRec) (db2 : DB) (fs2 : FS)
    (h : create_project pname pcode loc db fs = .ok (pr, db2, fs2)) :
    db2.mirMasters = db.mirMasters := by
  unfold create_project at h
  by_cases hc : db.projects.any (fun p => p.project_code == pcode) = true
  · rw [if_pos hc] at h
    exact Except.noConfusion h
  · rw [if_neg hc] at h
    simp only [Except.ok.injEq, Prod.mk.injEq] at h
    obtain ⟨-, hdb, -⟩ := h
    rw [← hdb]

theorem create_production_log_ok_mirMasters (panel product : String) (qty pid : Nat)
    (db db2 : DB) (h : create_production_log panel product qty pid db = .ok db2) :
    db2.mirMasters = db.mirMasters := by
  unfold create_production_log at h
  by_cases hc : db.productionLogs.any (fun l => l.panel_id == panel) = true
  · rw [if_pos hc] at h
    exact Except.noConfusion h
  · rw [if_neg hc] at h
    simp only [Except.ok.injEq] at h
    rw [← h]

theorem approve_qc_log_mirMasters (qid : Nat) (db : DB) :
    (approve_qc_log qid db).snd.mirMasters = db.mirMasters := by
  unfold approve_qc_log
  cases db.qcLogs.find? (fun q => q.id == qid) <;> rfl

/-! ### Lemmas about the pipeline stages -/

theorem string_append_assoc (a b c : String) : a ++ b ++ c = a ++ (b ++ c) := by
  apply String.ext
  simp [String.data_append, List.append_assoc]

/-- The successful run of create_mir_folder in closed form. -/
theorem create_mir_folder_ok (pid : Nat) (num : String) (ps : List String) (db : DB)
    (fs : FS) (ts : String) (proj : ProjectRec) (hfind : findProject db pid = some proj) :
    create_mir_folder pid num ps db fs ts = .ok
      (writeFile
        (mkdirAll (mkdirAll (mkdirAll (mkdirAll fs (mirFolderPath pid proj.project_code num))
          (mirFolderPath pid proj.project_code num ++ "/" ++ "source_files"))
          (mirFolderPath pid proj.project_code num ++ "/" ++ "merged_pdf"))
          (mirFolderPath pid proj.project_code num ++ "/" ++ "final_mir"))
        (mirFolderPath pid proj.project_code num ++ "/index.txt")
        (indexContent proj.project_code num proj.project_name ts ps)) := by
  unfold create_mir_folder
  rw [hfind]
  rfl

theorem generate_mir_cover_page_dirs (pid : Nat) (num : String) (ps : List String)
    (db : DB) (fs : FS) : (generate_mir_cover_page pid num ps db fs).dirs = fs.dirs := by
  unfold generate_mir_cover_page
  cases findProject db pid <;> rfl

theorem generate_panel_list_pdf_dirs (pid : Nat) (num : String) (ps : List String)
    (db : DB) (fs : FS) : (generate_panel_list_pdf pid num ps db fs).dirs = fs.dirs := by
  unfold generate_panel_list_pdf
  cases findProject db pid <;> rfl

theorem merge_mir_pdfs_fst_some (pid : Nat) (num : String) (db : DB) (fs : FS)
    (proj : ProjectRec) (hfind : findProject db pid = some proj)
    (hstag : pathExists fs
      (mirFolderPath pid proj.project_code num ++ "/" ++ "source_files") = true) :
    (merge_mir_pdfs pid num db fs).fst =
      some (mirFolderPath pid proj.project_code num ++ "/" ++ "FINAL_MIR.pdf") := by
  unfold merge_mir_pdfs
  rw [hfind]
  dsimp only
  rw [if_pos hstag]

theorem dirExists_writeFile (fs : FS) (p c q : String) :
    dirExists (writeFile fs p c) q = dirExists fs q := rfl

/-- After provisioning, the staging directory exists. -/
theorem provision_staging (fs : FS) (mf idx c : String) :
    dirExists (writeFile (mkdirAll (mkdirAll (mkdirAll (mkdirAll fs mf)
      (mf ++ "/" ++ "source_files")) (mf ++ "/" ++ "merged_pdf")) (mf ++ "/" ++ "final_mir"))
      idx c) (mf ++ "/" ++ "source_files") = true := by
  have h1 := dirExists_mkdirAll_self (mkdirAll fs mf) (mf ++ "/" ++ "source_files")
  have h2 := dirExists_mkdirAll_of _ (mf ++ "/" ++ "merged_pdf") _ h1
  have h3 := dirExists_mkdirAll_of _ (mf ++ "/" ++ "final_mir") _ h2
  exact h3

/-- Directory existence survives the generator and collector stages. -/
theorem pipeline_stage_dirs (pid : Nat) (num : String) (ps : List String) (dbIn : DB)
    (fs1 : FS) (q : String) (h0 : dirExists fs1 q = true) :
    pathExists (attach_documents_to_mir pid num ps
      (generate_panel_list_pdf pid num ps dbIn
        (generate_mir_cover_page pid num ps dbIn fs1))) q = true := by
  have h1 : dirExists (generate_mir_cover_page pid num ps dbIn fs1) q = true := by
    unfold dirExists at h0 ⊢
    rw [generate_mir_cover_page_dirs]
    exact h0
  have h2 : dirExists (generate_panel_list_pdf pid num ps dbIn
      (generate_mir_cover_page pid num ps dbIn fs1)) q = true := by
    unfold dirExists at h1 ⊢
    rw [generate_panel_list_pdf_dirs]
    exact h1
  have h3 : dirExists (attach_documents_to_mir pid num ps
      (generate_panel_list_pdf pid num ps dbIn
        (generate_mir_cover_page pid num ps dbIn fs1))) q = true := by
    rw [dirExists_iff] at h2 ⊢
    exact attach_dirs_mono pid num ps _ _ h2
  unfold pathExists
  rw [h3]
  rfl

/-- The pipeline tail succeeds with status Final as soon as the folder
provisioning succeeded and left the staging directory in place. -/
theorem create_mir_finish_eq (pid : Nat) (ps : List String) (num : String)
    (mirId : Nat) (dbIn : DB) (fs : FS) (ts : String) (proj : ProjectRec) (F : FS)
    (hfold : create_mir_folder pid num ps dbIn fs ts = .ok F)
    (hstagF : dirExists F
      (mirFolderPath pid proj.project_code num ++ "/" ++ "source_files") = true)
    (hfind : findProject dbIn pid = some proj) :
    ∃ dbOut fsOut, create_mir_finish pid ps num mirId dbIn fs ts =
      .ok ({ mir_number := num, status := "Final", folder_created := true,
             pdf_merged := true }, dbOut, fsOut) := by
  unfold create_mir_finish
  rw [hfold]
  dsimp only
  have hstag := pipeline_stage_dirs pid num ps dbIn F _ hstagF
  have hm := merge_mir_pdfs_fst_some pid num dbIn _ proj hfind hstag
  rw [hm]
  simp only [Option.isSome_some, eq_self_iff_true, if_true]
  exact ⟨_, _, rfl⟩

/-- The pipeline tail always succeeds with status Final once the project
row exists. -/
theorem create_mir_finish_ok_final (pid : Nat) (ps : List String) (num : String)
    (mirId : Nat) (dbIn : DB) (fs : FS) (ts : String) (proj : ProjectRec)
    (hfind : findProject dbIn pid = some proj) :
    ∃ dbOut fsOut, create_mir_finish pid ps num mirId dbIn fs ts =
      .ok ({ mir_number := num, status := "Final", folder_created := true,
             pdf_merged := true }, dbOut, fsOut) := by
  refine create_mir_finish_eq pid ps num mirId dbIn fs ts proj _
    (create_mir_folder_ok pid num ps dbIn fs ts proj hfind) ?_ hfind
  exact provision_staging fs (mirFolderPath pid proj.project_code num)
    (mirFolderPath pid proj.project_code num ++ "/index.txt")
    (indexContent proj.project_code num proj.project_name ts ps)

theorem noNl_append {a b : String} (ha : noNl a) (hb : noNl b) : noNl (a ++ b) := by
  intro hmem
  rw [String.data_append] at hmem
  rcases List.mem_append.mp hmem with h | h
  · exact ha h
  · exact hb h

theorem map_mk_data : ∀ L : List String, (L.map (fun s => s.data)).map String.mk = L
  | [] => rfl
  | s :: rest => by
    simp only [List.map_cons, map_mk_data rest]

theorem panelLines_data : ∀ ps : List String,
    (panelLines ps).data =
      linesJoin '\n' ((ps.map (fun p => "  - " ++ p)).map (fun s => s.data))
  | [] => rfl
  | p :: rest => by
    show (("  - " ++ p ++ "\n") ++ panelLines rest).data = _
    rw [String.data_append, panelLines_data rest]
    simp only [List.map_cons, linesJoin_cons, String.data_append]
    rw [List.append_assoc]
    rfl

/-- The content written by create_mir_folder, as newline-terminated lines. -/
theorem linesOf_indexContent (code num pname ts : String) (ps : List String)
    (hcode : noNl code) (hnum : noNl num) (hname : noNl pname) (hts : noNl ts)
    (hps : ∀ p ∈ ps, noNl p) :
    linesOf (indexContent code num pname ts ps) =
      ["MIR Number: " ++ code ++ "-" ++ num, "Project: " ++ pname, "Created: " ++ ts,
        "", "Panel IDs:"] ++ ps.map (fun p => "  - " ++ p) ++ [""] := by
  have hdata : (indexContent code num pname ts ps).data =
      linesJoin '\n' ((["MIR Number: " ++ code ++ "-" ++ num, "Project: " ++ pname,
        "Created: " ++ ts, "", "Panel IDs:"] ++ ps.map (fun p => "  - " ++ p)).map
        (fun s => s.data)) := by
    rw [List.map_append, linesJoin_append, ← panelLines_data]
    unfold indexContent
    simp [linesJoin, String.data_append, List.append_assoc]
  unfold linesOf
  rw [hdata, splitOnChar_linesJoin]
  · rw [List.map_append, map_mk_data]
    rfl
  · intro l hl
    rcases List.mem_map.mp hl with ⟨s, hs, rfl⟩
    rcases List.mem_append.mp hs with hh | hp
    · simp only [List.mem_cons, List.not_mem_nil, or_false] at hh
      rcases hh with rfl | rfl | rfl | rfl | rfl
      · exact noNl_append (noNl_append (noNl_append (by decide) hcode) (by decide)) hnum
      · exact noNl_append (by decide) hname
      · exact noNl_append (by decide) hts
      · decide
      · decide
    · rcases List.mem_map.mp hp with ⟨p, hpp, rfl⟩
      exact noNl_append (by decide) (hps p hpp)

/-- All three package subfolders exist after provisioning. -/
theorem provision_all_subdirs (fs : FS) (mf idx c : String) :
    ∀ sub ∈ mirSubfolders,
      dirExists (writeFile (mkdirAll (mkdirAll (mkdirAll (mkdirAll fs mf)
        (mf ++ "/" ++ "source_files")) (mf ++ "/" ++ "merged_pdf"))
        (mf ++ "/" ++ "final_mir")) idx c) (mf ++ "/" ++ sub) = true := by
  intro sub hsub
  rcases show sub = "source_files" ∨ sub = "merged_pdf" ∨ sub = "final_mir" by
    simpa [mirSubfolders] using hsub with rfl | rfl | rfl
  · exact provision_staging fs mf idx c
  · exact dirExists_mkdirAll_of _ _ _ (dirExists_mkdirAll_self _ _)
  · exact dirExists_mkdirAll_self _ _

/-- Provisioning creates nothing outside the package path: every directory
afterwards either existed before, is an ancestor of the package folder, or
is one of the three subfolders. -/
theorem provision_dirs_cases (fs : FS) (mf idx c d : String)
    (hd : d ∈ (writeFile (mkdirAll (mkdirAll (mkdirAll (mkdirAll fs mf)
      (mf ++ "/" ++ "source_files")) (mf ++ "/" ++ "merged_pdf"))
      (mf ++ "/" ++ "final_mir")) idx c).dirs) :
    d ∈ fs.dirs ∨ d ∈ pathAncestors mf ∨ ∃ sub ∈ mirSubfolders, d = mf ++ "/" ++ sub := by
  have hd1 : d ∈ (mkdirAll (mkdirAll (mkdirAll (mkdirAll fs mf)
      (mf ++ "/" ++ "source_files")) (mf ++ "/" ++ "merged_pdf"))
      (mf ++ "/" ++ "final_mir")).dirs := hd
  rcases (mem_dirs_mkdirAll _ _ _).mp hd1 with hd2 | hanc
  · rcases (mem_dirs_mkdirAll _ _ _).mp hd2 with hd3 | hanc
    · rcases (mem_dirs_mkdirAll _ _ _).mp hd3 with hd4 | hanc
      · rcases (mem_dirs_mkdirAll _ _ _).mp hd4 with hd5 | hanc
        · exact Or.inl hd5
        · exact Or.inr (Or.inl hanc)
      · rw [pathAncestors_append_leaf _ _ (by decide)] at hanc
        rcases List.mem_append.mp hanc with h | h
        · exact Or.inr (Or.inl h)
        · exact Or.inr (Or.inr ⟨"source_files", by simp [mirSubfolders],
            List.mem_singleton.mp h⟩)
    · rw [pathAncestors_append_leaf _ _ (by decide)] at hanc
      rcases List.mem_append.mp hanc with h | h
      · exact Or.inr (Or.inl h)
      · exact Or.inr (Or.inr ⟨"merged_pdf", by simp [mirSubfolders],
          List.mem_singleton.mp h⟩)
  · rw [pathAncestors_append_leaf _ _ (by decide)] at hanc
    rcases List.mem_append.mp hanc with h | h
    · exact Or.inr (Or.inl h)
    · exact Or.inr (Or.inr ⟨"final_mir", by simp [mirSubfolders],
        List.mem_singleton.mp h⟩)

/-- updateFirst replaces exactly the element at the first matching index. -/
theorem updateFirst_eq_set {α : Type} (p : α → Bool) (f : α → α) :
    ∀ (l : List α) (h : l.findIdx p < l.length),
      updateFirst p f l = l.set (l.findIdx p) (f (l.get ⟨l.findIdx p, h⟩))
  | [], h => by simp at h
  | x :: xs, h => by
    by_cases hx : p x
    · unfold updateFirst
      rw [if_pos hx]
      have h0 : (x :: xs).findIdx p = 0 := by
        rw [List.findIdx_cons, hx]
        rfl
      simp [h0]
    · unfold updateFirst
      rw [if_neg hx]
      have hxf : p x = false := by
        cases hb : p x
        · rfl
        · exact absurd hb hx
      have h0 : (x :: xs).findIdx p = xs.findIdx p + 1 := by
        rw [List.findIdx_cons, hxf]
        rfl
      have h' : xs.findIdx p < xs.length := by
        rw [h0] at h
        simpa using h
      simp [h0, updateFirst_eq_set p f xs h']

/-! ### The claims -/

/-- C1: the Sequencer does start at MIR-0001 for a project with no records,
but for a project whose last stored MIR number is MIR-0042 (the format
create_mir itself stores) it yields MIR-0001 again, not MIR-0043: the LIKE
pattern project_code-MIR-% never matches the stored MIR-NNNN numbers. -/
theorem claim_C1_sequencer_stuck :
    generate_mir_number "P1" emptyDB = some "MIR-0001" ∧
    generate_mir_number "P1" c1DB = some "MIR-0001" ∧
    generate_mir_number "P1" c1DB ≠ some "MIR-0043" := by
  refine ⟨rfl, rfl, ?_⟩
  decide

/-- C3: the Document Collector renames and copies the panel file and skips
missing subfolders, but it writes into MIR/1-MIR-0001/source_files (built
from the numeric project id), not into the package staging area
MIR/ABC-MIR-0001/source_files that the Folder Provisioner created for the
project whose code is ABC. -/
theorem claim_C3_collector_wrong_folder :
    readFile (attach_documents_to_mir 1 "MIR-0001" ["P1"] c3FS)
        "storage/project_1/MIR/1-MIR-0001/source_files/P1_checklists_a.pdf" = some "PDFA" ∧
    fileExists (attach_documents_to_mir 1 "MIR-0001" ["P1"] c3FS)
        "storage/project_1/MIR/ABC-MIR-0001/source_files/P1_checklists_a.pdf" = false := by
  exact ⟨rfl, rfl⟩

/-- C6: merge_mir_pdfs returns None and leaves the filesystem untouched
both when the project id has no record and when the staging directory
source_files does not exist. -/
theorem claim_C6_merge_skips (db : DB) (fs : FS) (pid : Nat) (num : String) :
    (findProject db pid = none → merge_mir_pdfs pid num db fs = (none, fs)) ∧
    (∀ proj, findProject db pid = some proj →
      pathExists fs (mirFolderPath pid proj.project_code num ++ "/" ++ "source_files") = false →
      merge_mir_pdfs pid num db fs = (none, fs)) := by
  constructor
  · intro h
    unfold merge_mir_pdfs
    rw [h]
  · intro proj h hp
    unfold merge_mir_pdfs
    rw [h]
    dsimp only
    have hnp : ¬(pathExists fs
        (mirFolderPath pid proj.project_code num ++ "/" ++ "source_files") = true) := by
      rw [hp]
      exact Bool.false_ne_true
    rw [if_neg hnp]

/-- C6 witness: both branches evaluated at concrete inputs. -/
theorem claim_C6_witness :
    (findProject c1DB 9 = none ∧
      merge_mir_pdfs 9 "MIR-0001" c1DB emptyFS = (none, emptyFS)) ∧
    (findProject c1DB 1 = some sampleProject ∧
      pathExists emptyFS (mirFolderPath 1 sampleProject.project_code "MIR-0001" ++ "/" ++
        "source_files") = false ∧
      merge_mir_pdfs 1 "MIR-0001" c1DB emptyFS = (none, emptyFS)) :=
  ⟨⟨by decide, (claim_C6_merge_skips c1DB emptyFS 9 "MIR-0001").1 (by decide)⟩,
   ⟨by decide, by decide,
    (claim_C6_merge_skips c1DB emptyFS 1 "MIR-0001").2 sampleProject (by decide) (by decide)⟩⟩

/-- C2 counterexample: project 2 exists and the panel list is P1, yet the
endpoint returns no response: the Sequencer generates MIR-0001 (its pattern
matches no stored number), which collides with the system-wide unique
mir_number of the MIR already stored for project 1, so the insert fails. -/
theorem claim_C2_counterexample :
    findProject c2DB 2 = some ⟨2, "Beta Plant", "P2", none⟩ ∧
    create_mir 2 ["P1"] c2DB emptyFS "2026-01-02" =
      .error "IntegrityError UNIQUE constraint failed mir_master.mir_number" := by
  exact ⟨rfl, rfl⟩

/-- C2 (amended): for every existing project id and every panel list,
provided no stored MIR record already bears the number the Sequencer
generates, the endpoint runs the whole pipeline and returns mir_number,
status, folder_created and pdf_merged, with status Final (hence Ready or
Final) and folder_created true, even when no panel has any documents. -/
theorem claim_C2_mir_endpoint (db : DB) (fs : FS) (pid : Nat) (ps : List String)
    (ts num : String) (proj : ProjectRec)
    (hfind : findProject db pid = some proj)
    (hgen : generate_mir_number proj.project_code db = some num)
    (hfresh : ∀ m ∈ db.mirMasters, m.mir_number ≠ num) :
    ∃ dbOut fsOut, create_mir pid ps db fs ts =
      .ok ({ mir_number := num, status := "Final", folder_created := true,
             pdf_merged := true }, dbOut, fsOut) := by
  unfold create_mir
  rw [hfind]
  dsimp only
  rw [hgen]
  dsimp only
  have hany : ¬(db.mirMasters.any (fun m => m.mir_number == num) = true) := by
    rw [List.any_eq_true]
    rintro ⟨m, hm, hbeq⟩
    exact hfresh m hm (by rwa [beq_iff_eq] at hbeq)
  rw [if_neg hany]
  apply create_mir_finish_ok_final
  refine Eq.trans (findProject_congr _ db pid ?_) hfind
  rw [foldl_addPanelRow_projects]

/-- C2 witness: the pipeline evaluated at a fresh single-project store with
one panel that has no documents anywhere. -/
theorem claim_C2_witness :
    findProject c1DB 1 = some sampleProject ∧
    generate_mir_number sampleProject.project_code c1DB = some "MIR-0001" ∧
    (∀ m ∈ c1DB.mirMasters, m.mir_number ≠ "MIR-0001") ∧
    ∃ dbOut fsOut, create_mir 1 ["P1"] c1DB emptyFS "2026-01-02" =
      .ok ({ mir_number := "MIR-0001", status := "Final", folder_created := true,
             pdf_merged := true }, dbOut, fsOut) :=
  ⟨by decide, by decide, by decide,
   claim_C2_mir_endpoint c1DB emptyFS 1 ["P1"] "2026-01-02" "MIR-0001" sampleProject
     (by decide) (by decide) (by decide)⟩

/-- C4: the Merger appends staging pdfs group-major in the fixed marker
priority order, lexicographically within a group; every appended file is a
pdf containing one of the five markers, so unmatched files are excluded;
the concrete six-file example produces exactly the specified order. -/
theorem claim_C4_merge_order :
    mergeOrder ["PHOTO_2.pdf", "CHECKLIST_b.pdf", "MIR_FORM_cover.pdf",
        "CHECKLIST_a.pdf", "PANEL_LIST_x.pdf", "random.pdf"] =
      ["MIR_FORM_cover.pdf", "PANEL_LIST_x.pdf", "CHECKLIST_a.pdf",
        "CHECKLIST_b.pdf", "PHOTO_2.pdf"] ∧
    (∀ files f, f ∈ mergeOrder files →
      strEndsWith f ".pdf" = true ∧ ∃ g ∈ orderedGroups, strContains g f = true) ∧
    (∀ files g, g ∈ orderedGroups →
      (mergeGroupBlock g files).Pairwise (fun a b => strLe a b = true)) := by
  refine ⟨by decide, ?_, ?_⟩
  · intro files f hf
    unfold mergeOrder at hf
    obtain ⟨g, hg, hfg⟩ := List.mem_flatMap.mp hf
    unfold mergeGroupBlock at hfg
    obtain ⟨-, hp⟩ := List.mem_filter.mp hfg
    rw [Bool.and_eq_true] at hp
    exact ⟨hp.1, g, hg, hp.2⟩
  · intro files g hg
    unfold mergeGroupBlock
    exact (sortStrings_pairwise files).sublist (List.filter_sublist _)

/-- C4 witness: the exclusion property and the within-group sortedness at
concrete inputs. -/
theorem claim_C4_witness :
    (strEndsWith "MIR_FORM_cover.pdf" ".pdf" = true ∧
      ∃ g ∈ orderedGroups, strContains g "MIR_FORM_cover.pdf" = true) ∧
    (mergeGroupBlock "CHECKLIST" ["CHECKLIST_b.pdf", "CHECKLIST_a.pdf"]).Pairwise
      (fun a b => strLe a b = true) :=
  ⟨claim_C4_merge_order.2.1 ["MIR_FORM_cover.pdf"] "MIR_FORM_cover.pdf" (by decide),
   claim_C4_merge_order.2.2 ["CHECKLIST_b.pdf", "CHECKLIST_a.pdf"] "CHECKLIST" (by decide)⟩

/-- C10: every staging pdf is appended once per matching marker group, so
the number of times a file occurs in the merge order is the number of
markers it contains times its multiplicity in the listing; a file carrying
two markers therefore has its pages twice in the output. -/
theorem claim_C10_multi_marker (files : List String) (f : String) :
    (mergeOrder files).count f =
      (orderedGroups.filter (fun g => strEndsWith f ".pdf" && strContains g f)).length *
        files.count f ∧
    mergeOrder ["DRAWING_PHOTO_x.pdf"] = ["DRAWING_PHOTO_x.pdf", "DRAWING_PHOTO_x.pdf"] := by
  constructor
  · unfold mergeOrder orderedGroups mergeGroupBlock
    simp only [List.flatMap_cons, List.flatMap_nil, List.append_nil, List.count_append]
    rw [count_filter_eq, count_filter_eq, count_filter_eq, count_filter_eq, count_filter_eq,
      count_sortStrings]
    cases h0 : strEndsWith f ".pdf" <;>
      cases h1 : strContains "MIR_FORM_" f <;>
      cases h2 : strContains "PANEL_LIST_" f <;>
      cases h3 : strContains "CHECKLIST" f <;>
      cases h4 : strContains "DRAWING_" f <;>
      cases h5 : strContains "PHOTO" f <;>
      simp [h0, h1, h2, h3, h4, h5] <;> omega
  · decide

/-- C10 witness: the double-marker file counted through the general
formula. -/
theorem claim_C10_witness :
    (mergeOrder ["DRAWING_PHOTO_x.pdf"]).count "DRAWING_PHOTO_x.pdf" =
      (orderedGroups.filter (fun g => strEndsWith "DRAWING_PHOTO_x.pdf" ".pdf" &&
        strContains g "DRAWING_PHOTO_x.pdf")).length *
        (["DRAWING_PHOTO_x.pdf"].count "DRAWING_PHOTO_x.pdf") :=
  (claim_C10_multi_marker ["DRAWING_PHOTO_x.pdf"] "DRAWING_PHOTO_x.pdf").1

/-- C5: every record-store state reachable through the API keeps mir_number
unique across all MIRMaster rows: the only inserting operation, create_mir,
is guarded by the unique column constraint. -/
theorem claim_C5_mir_number_unique (db : DB) (h : ReachableDB db) : mirNumbersUnique db := by
  unfold ReachableDB at h
  induction h with
  | refl => simp [mirNumbersUnique, emptyDB]
  | tail hsteps hstep ih =>
    cases hstep with
    | createProject pname pcode loc fs fs2 pr dbb dbb2 hok =>
      unfold mirNumbersUnique
      rw [create_project_ok_mirMasters _ _ _ _ _ _ _ _ hok]
      exact ih
    | createProductionLog panel product qty pid dbb dbb2 hok =>
      unfold mirNumbersUnique
      rw [create_production_log_ok_mirMasters _ _ _ _ _ _ hok]
      exact ih
    | approve qid dbb =>
      unfold mirNumbersUnique
      rw [approve_qc_log_mirMasters]
      exact ih
    | createMIR pid ps ts fs fs2 r dbb dbb2 hok =>
      obtain ⟨num, hfresh, hmap⟩ := create_mir_ok_numbers _ _ _ _ _ _ _ _ hok
      unfold mirNumbersUnique at ih ⊢
      rw [hmap, List.pairwise_append]
      refine ⟨ih, List.pairwise_singleton _ _, ?_⟩
      intro a ha b hb
      rw [List.mem_singleton] at hb
      obtain ⟨m, hm, rfl⟩ := List.mem_map.mp ha
      rw [hb]
      exact hfresh m hm

/-- C5 witness: the invariant at the empty store, reachable by zero steps. -/
theorem claim_C5_witness : mirNumbersUnique emptyDB :=
  claim_C5_mir_number_unique emptyDB Relation.ReflTransGen.refl

/-- C7: given an existing project, the Folder Provisioner creates exactly
the three subfolders source_files, merged_pdf and final_mir under the
package path (anything else it creates is an ancestor of the package
path), and writes index.txt at the package root whose lines are the report
identifier, project name, creation timestamp, a blank line, the Panel IDs
header, and one line per panel identifier. -/
theorem claim_C7_folder_provisioner (db : DB) (fs : FS) (pid : Nat) (num : String)
    (ps : List String) (ts : String) (proj : ProjectRec)
    (hfind : findProject db pid = some proj)
    (hcode : noNl proj.project_code) (hnum : noNl num) (hname : noNl proj.project_name)
    (hts : noNl ts) (hps : ∀ p ∈ ps, noNl p) :
    ∃ fsOut, create_mir_folder pid num ps db fs ts = .ok fsOut ∧
      (∀ sub ∈ mirSubfolders,
        dirExists fsOut (mirFolderPath pid proj.project_code num ++ "/" ++ sub) = true) ∧
      (∀ d ∈ fsOut.dirs, d ∈ fs.dirs ∨
        d ∈ pathAncestors (mirFolderPath pid proj.project_code num) ∨
        ∃ sub ∈ mirSubfolders, d = mirFolderPath pid proj.project_code num ++ "/" ++ sub) ∧
      readFile fsOut (mirFolderPath pid proj.project_code num ++ "/index.txt") =
        some (indexContent proj.project_code num proj.project_name ts ps) ∧
      linesOf (indexContent proj.project_code num proj.project_name ts ps) =
        ["MIR Number: " ++ proj.project_code ++ "-" ++ num,
          "Project: " ++ proj.project_name, "Created: " ++ ts, "", "Panel IDs:"] ++
          ps.map (fun p => "  - " ++ p) ++ [""] := by
  refine ⟨_, create_mir_folder_ok pid num ps db fs ts proj hfind,
    provision_all_subdirs fs _ _ _, ?_, readFile_writeFile_self _ _ _,
    linesOf_indexContent _ _ _ _ _ hcode hnum hname hts hps⟩
  intro d hd
  exact provision_dirs_cases fs _ _ _ d hd

/-- C7 witness: the provisioner evaluated for a concrete project with two
panels. -/
theorem claim_C7_witness :
    findProject c1DB 1 = some sampleProject ∧
    ∃ fsOut, create_mir_folder 1 "MIR-0001" ["PNL-1", "PNL-2"] c1DB emptyFS
        "2026-01-02 10:00:00" = .ok fsOut ∧
      (∀ sub ∈ mirSubfolders,
        dirExists fsOut (mirFolderPath 1 sampleProject.project_code "MIR-0001" ++
          "/" ++ sub) = true) ∧
      (∀ d ∈ fsOut.dirs, d ∈ emptyFS.dirs ∨
        d ∈ pathAncestors (mirFolderPath 1 sampleProject.project_code "MIR-0001") ∨
        ∃ sub ∈ mirSubfolders,
          d = mirFolderPath 1 sampleProject.project_code "MIR-0001" ++ "/" ++ sub) ∧
      readFile fsOut (mirFolderPath 1 sampleProject.project_code "MIR-0001" ++
          "/index.txt") =
        some (indexContent sampleProject.project_code "MIR-0001"
          sampleProject.project_name "2026-01-02 10:00:00" ["PNL-1", "PNL-2"]) ∧
      linesOf (indexContent sampleProject.project_code "MIR-0001"
          sampleProject.project_name "2026-01-02 10:00:00" ["PNL-1", "PNL-2"]) =
        ["MIR Number: " ++ sampleProject.project_code ++ "-" ++ "MIR-0001",
          "Project: " ++ sampleProject.project_name,
          "Created: " ++ "2026-01-02 10:00:00", "", "Panel IDs:"] ++
          ["PNL-1", "PNL-2"].map (fun p => "  - " ++ p) ++ [""] :=
  ⟨by decide,
   claim_C7_folder_provisioner c1DB emptyFS 1 "MIR-0001" ["PNL-1", "PNL-2"]
     "2026-01-02 10:00:00" sampleProject (by decide) (by decide) (by decide) (by decide)
     (by decide) (by intro p hp; fin_cases hp <;> decide)⟩

/-- C8: re-running the Folder Provisioner over any filesystem state in
which the package path already exists succeeds (every makedirs call passes
exist_ok) and deletes nothing: every directory and every file that existed
before still exists afterwards. -/
theorem claim_C8_provisioner_idempotent (db : DB) (fs : FS) (pid : Nat) (num ts : String)
    (ps : List String) (proj : ProjectRec)
    (hfind : findProject db pid = some proj)
    (_hexisting : dirExists fs (mirFolderPath pid proj.project_code num) = true) :
    ∃ fsOut, create_mir_folder pid num ps db fs ts = .ok fsOut ∧
      (∀ d, dirExists fs d = true → dirExists fsOut d = true) ∧
      (∀ q, fileExists fs q = true → fileExists fsOut q = true) := by
  refine ⟨_, create_mir_folder_ok pid num ps db fs ts proj hfind, ?_, ?_⟩
  · intro d hd
    exact dirExists_mkdirAll_of _ _ _ (dirExists_mkdirAll_of _ _ _
      (dirExists_mkdirAll_of _ _ _ (dirExists_mkdirAll_of _ _ _ hd)))
  · intro q hq
    exact fileExists_writeFile_of _ _ _ _ hq

/-- C9: the approval operation sets the status of the first QC log with the
given id to Approved and changes nothing else (approveRec touches only the
status column; the other tables and the other QC log rows are untouched);
for an unknown id it errors with 404 and returns the store unchanged. -/
theorem claim_C9_approve_frame (db : DB) (qid : Nat) :
    (∀ q, (approveRec q).status = "Approved" ∧ (approveRec q).id = q.id ∧
      (approveRec q).panel_id = q.panel_id ∧
      (approveRec q).inspector_name = q.inspector_name ∧
      (approveRec q).remarks = q.remarks ∧ (approveRec q).project_id = q.project_id ∧
      (approveRec q).production_log_id = q.production_log_id) ∧
    ((∃ q ∈ db.qcLogs, q.id = qid) →
      (approve_qc_log qid db).fst = .ok ("QC Log approved", qid, "Approved") ∧
      (approve_qc_log qid db).snd.projects = db.projects ∧
      (approve_qc_log qid db).snd.productionLogs = db.productionLogs ∧
      (approve_qc_log qid db).snd.mirMasters = db.mirMasters ∧
      (approve_qc_log qid db).snd.mirPanels = db.mirPanels ∧
      ∃ i, ∃ h : i < db.qcLogs.length,
        (db.qcLogs.get ⟨i, h⟩).id = qid ∧
        (approve_qc_log qid db).snd.qcLogs =
          db.qcLogs.set i (approveRec (db.qcLogs.get ⟨i, h⟩))) ∧
    ((∀ q ∈ db.qcLogs, q.id ≠ qid) →
      approve_qc_log qid db = (.error "404 QC Log not found", db)) := by
  refine ⟨fun q => ⟨rfl, rfl, rfl, rfl, rfl, rfl, rfl⟩, ?_, ?_⟩
  · rintro ⟨q0, hq0, hid0⟩
    have hexq : ∃ q ∈ db.qcLogs, (fun q => q.id == qid) q = true :=
      ⟨q0, hq0, by show (q0.id == qid) = true; rw [hid0]; exact beq_self_eq_true _⟩
    have hfind := List.find?_isSome.mpr hexq
    rcases hf : db.qcLogs.find? (fun q => q.id == qid) with _ | qfound
    · rw [hf] at hfind
      exact absurd hfind (by simp)
    have happ : approve_qc_log qid db = (.ok ("QC Log approved", qid, "Approved"),
        { db with qcLogs := updateFirst (fun q => q.id == qid) approveRec db.qcLogs }) := by
      unfold approve_qc_log
      rw [hf]
    rw [happ]
    have hlt : db.qcLogs.findIdx (fun q => q.id == qid) < db.qcLogs.length :=
      List.findIdx_lt_length_of_exists hexq
    refine ⟨rfl, rfl, rfl, rfl, rfl, db.qcLogs.findIdx (fun q => q.id == qid), hlt, ?_, ?_⟩
    · rw [List.get_eq_getElem]
      have hp := @List.findIdx_getElem QCLogRec (fun q => q.id == qid) db.qcLogs hlt
      exact beq_iff_eq.mp hp
    · exact updateFirst_eq_set _ _ _ hlt
  · intro hnone
    have hf : db.qcLogs.find? (fun q => q.id == qid) = none := by
      rw [List.find?_eq_none]
      intro q hq
      intro hbeq
      exact hnone q hq (by rwa [beq_iff_eq] at hbeq)
    unfold approve_qc_log
    rw [hf]

/-- C9 witness: approving log 5 in a two-log store updates only that row. -/
theorem claim_C9_witness :
    (∃ q ∈ c9DB.qcLogs, q.id = 5) ∧
    ((approve_qc_log 5 c9DB).fst = .ok ("QC Log approved", 5, "Approved") ∧
      (approve_qc_log 5 c9DB).snd.projects = c9DB.projects ∧
      (approve_qc_log 5 c9DB).snd.productionLogs = c9DB.productionLogs ∧
      (approve_qc_log 5 c9DB).snd.mirMasters = c9DB.mirMasters ∧
      (approve_qc_log 5 c9DB).snd.mirPanels = c9DB.mirPanels ∧
      ∃ i, ∃ h : i < c9DB.qcLogs.length,
        (c9DB.qcLogs.get ⟨i, h⟩).id = 5 ∧
        (approve_qc_log 5 c9DB).snd.qcLogs =
          c9DB.qcLogs.set i (approveRec (c9DB.qcLogs.get ⟨i, h⟩))) ∧
    approve_qc_log 99 c9DB = (.error "404 QC Log not found", c9DB) :=
  ⟨⟨⟨5, "P1", "Inspector One", "Pending", none, 1, 1⟩, by decide, rfl⟩,
   (claim_C9_approve_frame c9DB 5).2.1
     ⟨⟨5, "P1", "Inspector One", "Pending", none, 1, 1⟩, by decide, rfl⟩,
   (claim_C9_approve_frame c9DB 99).2.2 (by decide)⟩

/-- C8 witness: a second run over an already provisioned package keeps the
prior staging file and the package directories. -/
theorem claim_C8_witness :
    findProject c1DB 1 = some sampleProject ∧
    dirExists c8FS (mirFolderPath 1 sampleProject.project_code "MIR-0007") = true ∧
    ∃ fsOut, create_mir_folder 1 "MIR-0007" ["PNL-9"] c1DB c8FS "2026-01-03" = .ok fsOut ∧
      (∀ d, dirExists c8FS d = true → dirExists fsOut d = true) ∧
      (∀ q, fileExists c8FS q = true → fileExists fsOut q = true) :=
  ⟨by decide, by decide,
   claim_C8_provisioner_idempotent c1DB c8FS 1 "MIR-0007" "2026-01-03" ["PNL-9"]
     sampleProject (by decide) (by decide)⟩

end QC
